import Mathlib

/-!
# MJPEG web server: frame buffer, connection registry and broadcast tick

A shallow embedding of `webserver.cpp` / `webserver.h`.

* The fields of `class WebServer` become the structure `WebServer`.
* Every member function becomes a pure function from the state before the call to the
  state after it, together with the list of effects it performed on its collaborators
  (sockets, timer, listener, encoder, signals), in program order.  `qDebug()` output is
  not recorded.
* What the Qt runtime decides (whether a socket is connected, what `write` returns, what
  `QImage::save` produces, whether `listen` succeeds, how request bytes decode) is an
  explicit argument.
* A signal raised by an effect (`disconnected` after `disconnectFromHost`) is delivered as a
  later call of its slot.
-/

namespace Mjpeg

/-! ## Data model -/

/-- A `QByteArray`: a sequence of byte values. -/
abbrev QByteArray := List Nat

/-- A `QString`: a sequence of characters. -/
abbrev QString := List Char

/-- A `QTcpSocket*`, identified by its address. -/
abbrev Socket := Nat

/-- A `QImage`: `none` is the null image, `some px` an image with pixel data `px`. -/
abbrev QImage := Option (List Nat)

/-- Model of `QImage::isNull`. -/
def QImage.isNull (image : QImage) : Bool := image.isNone

/-- The bytes of a C string literal made of ASCII characters. -/
def lit (s : String) : QByteArray := s.toList.map Char.toNat

/-- The characters of a string literal used as a `QString`. -/
def qs (s : String) : QString := s.toList

/-- Digits of `n`, most significant first, in front of `acc`; `fuel` bounds the number of
digits produced. -/
def numberAux : Nat → Nat → QByteArray → QByteArray
  | 0, _, acc => acc
  | fuel + 1, n, acc =>
    if n / 10 = 0 then (48 + n % 10) :: acc
    else numberAux fuel (n / 10) ((48 + n % 10) :: acc)

/-- Model of `QByteArray::number` on a size: the decimal digits, in ASCII. -/
def QByteArray.number (n : Nat) : QByteArray := numberAux (n + 1) n []

/-- Everything a member function does to its collaborators. -/
inductive Effect where
  | listen (port : Nat)
  | serverClose
  | timerStart
  | timerStop
  | save (image : QImage) (quality : Nat)
  | write (socket : Socket) (data : QByteArray)
  | flush (socket : Socket)
  | disconnectFromHost (socket : Socket)
  | deleteLater (socket : Socket)
  | serverStarted (port : Nat)
  | serverStopped
  | clientConnected (socket : Socket)
  | clientDisconnected (socket : Socket)
  | error
  deriving DecidableEq, Repr

/-- The member variables of `class WebServer` (the listener and the timer are collaborators,
reached through effects). -/
structure WebServer where
  m_streamClients : List Socket
  m_currentFrame : QImage
  m_port : Nat
  m_isRunning : Bool
  deriving DecidableEq, Repr

/-- What the sockets and the image library answer during one call. -/
structure Runtime where
  /-- Whether `socket->state() == QAbstractSocket::ConnectedState`. -/
  connected : Socket → Bool
  /-- The value returned by `socket->write(data)`. -/
  write : Socket → QByteArray → Int
  /-- The bytes `image.save(&buffer, "JPEG", quality)` leaves in the buffer. -/
  save : QImage → Nat → QByteArray

namespace WebServer

/-- The state after a call and the effects of the call, in order. -/
abbrev Outcome := WebServer × List Effect

/-- `static const QByteArray BOUNDARY = "--boundary";` -/
def BOUNDARY : QByteArray := lit "--boundary"

/-- The constructor `WebServer::WebServer`: no client, null frame, port 0, not running. -/
def new : WebServer := ⟨[], none, 0, false⟩

/-! ## Frame buffer -/

/-- `WebServer::updateFrame`. -/
def updateFrame (frame : QImage) (st : WebServer) : Outcome :=
  if !frame.isNull then
    ({ st with m_currentFrame := frame }, [])
  else
    (st, [])

/-! ## Broadcast tick -/

/-- `WebServer::imageToJpeg`: one call of `image.save` into a fresh buffer; the buffer is
returned.  The header declares the default `quality = 85`. -/
def imageToJpeg (rt : Runtime) (image : QImage) (quality : Nat) : QByteArray × List Effect :=
  (rt.save image quality, [Effect.save image quality])

/-- The block assembled in `sendFrameToClients` around the encoded bytes. -/
def frameData (jpegData : QByteArray) : QByteArray :=
  (BOUNDARY ++ lit "\r\n")
    ++ lit "Content-Type: image/jpeg\r\n"
    ++ (lit "Content-Length: " ++ QByteArray.number jpegData.length ++ lit "\r\n\r\n")
    ++ jpegData
    ++ lit "\r\n"

/-- The `while (it.hasNext())` loop of `sendFrameToClients` over a
`QMutableListIterator`: `passed` are the items before the cursor, the second list the items
after it.  `it.next()` moves the cursor over the next item, `it.remove()` deletes the item
the cursor has just moved over. -/
def fanout (rt : Runtime) (data : QByteArray) :
    List Socket → List Socket → List Effect → List Socket × List Effect
  | passed, [], log => (passed, log)
  | passed, socket :: rest, log =>
    let passed1 := passed ++ [socket]
    if rt.connected socket then
      let written := rt.write socket data
      if written = -1 ∨ written < (data.length : Int) then
        fanout rt data passed1.dropLast rest
          (log ++ [Effect.write socket data, Effect.deleteLater socket])
      else
        fanout rt data passed1 rest (log ++ [Effect.write socket data, Effect.flush socket])
    else
      fanout rt data passed1.dropLast rest (log ++ [Effect.deleteLater socket])

/-- `WebServer::sendFrameToClients`, one broadcast tick. -/
def sendFrameToClients (rt : Runtime) (st : WebServer) : Outcome :=
  if st.m_currentFrame.isNull || st.m_streamClients.isEmpty then
    (st, [])
  else
    let encoded := imageToJpeg rt st.m_currentFrame 85
    let jpegData := encoded.1
    let data := frameData jpegData
    let r := fanout rt data [] st.m_streamClients encoded.2
    ({ st with m_streamClients := r.1 }, r.2)

/-! ## Server lifecycle -/

/-- `WebServer::start`.  `bound` is the answer of `m_server->listen(QHostAddress::Any, port)`:
`none` when it fails, `some p` when it succeeds and `m_server->serverPort()` is then `p`. -/
def start (port : Nat) (bound : Option Nat) (st : WebServer) : Bool × Outcome :=
  if st.m_isRunning then
    (true, st, [])
  else
    match bound with
    | none => (false, st, [Effect.listen port, Effect.error])
    | some p =>
      (true, { st with m_port := p, m_isRunning := true },
        [Effect.listen port, Effect.timerStart, Effect.serverStarted p])

/-- `WebServer::stop`. -/
def stop (st : WebServer) : Outcome :=
  if !st.m_isRunning then
    (st, [])
  else
    ({ st with m_streamClients := [], m_isRunning := false, m_port := 0 },
      [Effect.timerStop]
        ++ st.m_streamClients.flatMap
            (fun client => [Effect.disconnectFromHost client, Effect.deleteLater client])
        ++ [Effect.serverClose, Effect.serverStopped])

/-- `WebServer::isRunning`. -/
def isRunning (st : WebServer) : Bool := st.m_isRunning

/-- `WebServer::serverPort`. -/
def serverPort (st : WebServer) : Nat := st.m_port

/-! ## Connection registry -/

/-- Model of `QList::removeAll`: every occurrence of `x` is dropped. -/
def removeAll (l : List Socket) (x : Socket) : List Socket := l.filter (fun y => y != x)

/-- `WebServer::handleNewConnection`.  `pending` is `m_server->nextPendingConnection()`; the
call only wires the socket's signals to the two slots below. -/
def handleNewConnection (pending : Option Socket) (st : WebServer) : Outcome :=
  match pending with
  | none => (st, [])
  | some _ => (st, [])

/-- `WebServer::handleClientDisconnected`.  `sender` is `qobject_cast<QTcpSocket*>(sender())`. -/
def handleClientDisconnected (sender : Option Socket) (st : WebServer) : Outcome :=
  match sender with
  | none => (st, [])
  | some socket =>
    ({ st with m_streamClients := removeAll st.m_streamClients socket },
      [Effect.deleteLater socket, Effect.clientDisconnected socket])

/-- The response header written by `sendMjpegStream`. -/
def mjpegHeader : QByteArray :=
  lit "HTTP/1.1 200 OK\r\nContent-Type: multipart/x-mixed-replace; boundary="
    ++ BOUNDARY
    ++ lit "\r\nCache-Control: no-cache\r\nConnection: keep-alive\r\n\r\n"

/-- `WebServer::sendMjpegStream`. -/
def sendMjpegStream (socket : Socket) (st : WebServer) : Outcome :=
  if !st.m_streamClients.contains socket then
    ({ st with m_streamClients := st.m_streamClients ++ [socket] },
      [Effect.write socket mjpegHeader, Effect.flush socket, Effect.clientConnected socket])
  else
    (st, [Effect.write socket mjpegHeader, Effect.flush socket])

/-! ## HTTP glue -/

/-- The UTF-8 bytes of one character. -/
def utf8 (c : Char) : QByteArray :=
  if c.toNat < 128 then [c.toNat]
  else if c.toNat < 2048 then [192 + c.toNat / 64, 128 + c.toNat % 64]
  else if c.toNat < 65536 then
    [224 + c.toNat / 4096, 128 + c.toNat / 64 % 64, 128 + c.toNat % 64]
  else
    [240 + c.toNat / 262144, 128 + c.toNat / 4096 % 64, 128 + c.toNat / 64 % 64,
      128 + c.toNat % 64]

/-- Model of `QString::toUtf8`. -/
def toUtf8 (s : QString) : QByteArray := s.flatMap utf8

/-- Model of `QString::startsWith`. -/
def startsWith (s p : QString) : Bool := p.isPrefixOf s

/-- Worker of `split`: `skip` counts the characters of a separator still to be passed. -/
def splitGo (sep : QString) : QString → Nat → List QString
  | [], _ => [[]]
  | _ :: cs, skip + 1 => splitGo sep cs skip
  | c :: cs, 0 =>
    if sep.isPrefixOf (c :: cs) then [] :: splitGo sep cs (sep.length - 1)
    else (c :: (splitGo sep cs 0).headD []) :: (splitGo sep cs 0).tail

/-- Model of `QString::split` with a non-empty separator and the default
`Qt::KeepEmptyParts`: the pieces between the occurrences of `sep`, empty pieces included. -/
def split (sep s : QString) : List QString := splitGo sep s 0

/-- The page text of `sendHtmlPage`. -/
def html : QString :=
  String.toList (String.join [
    "<!DOCTYPE html>\n",
    "<html>\n",
    "<head>\n",
    "    <meta charset=\"UTF-8\">\n",
    "    <meta name=\"viewport\" content=\"width=device-width, initial-scale=1.0\">\n",
    "    <title>Qt 監控系統 - 遠端監看</title>\n",
    "    <style>\n",
    "        body \x7b\n",
    "            font-family: \x27Microsoft JhengHei\x27, Arial, sans-serif;\n",
    "            margin: 0;\n",
    "            padding: 20px;\n",
    "            background-color: #f0f0f0;\n",
    "            text-align: center;\n",
    "        \x7d\n",
    "        h1 \x7b\n",
    "            color: #333;\n",
    "            margin-bottom: 10px;\n",
    "        \x7d\n",
    "        .info \x7b\n",
    "            color: #666;\n",
    "            margin-bottom: 20px;\n",
    "            font-size: 14px;\n",
    "        \x7d\n",
    "        #stream-container \x7b\n",
    "            max-width: 100%;\n",
    "            margin: 0 auto;\n",
    "            background-color: #000;\n",
    "            border-radius: 8px;\n",
    "            overflow: hidden;\n",
    "            box-shadow: 0 4px 6px rgba(0,0,0,0.1);\n",
    "        \x7d\n",
    "        #stream \x7b\n",
    "            width: 100%;\n",
    "            height: auto;\n",
    "            display: block;\n",
    "        \x7d\n",
    "        .status \x7b\n",
    "            margin-top: 15px;\n",
    "            padding: 10px;\n",
    "            background-color: #4CAF50;\n",
    "            color: white;\n",
    "            border-radius: 4px;\n",
    "            display: inline-block;\n",
    "        \x7d\n",
    "    </style>\n",
    "</head>\n",
    "<body>\n",
    "    <h1>🎥 Qt 監控系統 - 遠端監看</h1>\n",
    "    <div class=\"info\">透過手機或平板瀏覽器即時觀看監控畫面</div>\n",
    "    <div id=\"stream-container\">\n",
    "        <img id=\"stream\" src=\"/stream.mjpeg\" alt=\"Loading stream...\">\n",
    "    </div>\n",
    "    <div class=\"status\">● 即時串流中</div>\n",
    "</body>\n",
    "</html>\n"])

/-- The response written by `sendHtmlPage`. -/
def htmlResponse : QByteArray :=
  lit "HTTP/1.1 200 OK\r\nContent-Type: text/html; charset=utf-8\r\nContent-Length: "
    ++ QByteArray.number (toUtf8 html).length
    ++ lit "\r\nConnection: close\r\n\r\n"
    ++ toUtf8 html

/-- `WebServer::sendHtmlPage`. -/
def sendHtmlPage (socket : Socket) (st : WebServer) : Outcome :=
  (st, [Effect.write socket htmlResponse, Effect.flush socket,
    Effect.disconnectFromHost socket])

/-- The response written by the last branch of `sendHttpResponse`. -/
def notFoundResponse : QByteArray :=
  lit ("HTTP/1.1 404 Not Found\r\n"
    ++ "Content-Type: text/plain\r\n"
    ++ "Connection: close\r\n\r\n"
    ++ "404 Not Found")

/-- `WebServer::sendHttpResponse`. -/
def sendHttpResponse (socket : Socket) (path : QString) (st : WebServer) : Outcome :=
  if path = qs "/" ∨ startsWith path (qs "/index") = true then
    sendHtmlPage socket st
  else if path = qs "/stream.mjpeg" ∨ path = qs "/stream" then
    sendMjpegStream socket st
  else
    (st, [Effect.write socket notFoundResponse, Effect.flush socket,
      Effect.disconnectFromHost socket])

/-- `WebServer::handleClientData`.  `sender` is `qobject_cast<QTcpSocket*>(sender())`,
`requestData` what `socket->readAll()` returns and `fromUtf8` the decoder
`QString::fromUtf8`. -/
def handleClientData (fromUtf8 : QByteArray → QString) (sender : Option Socket)
    (requestData : QByteArray) (st : WebServer) : Outcome :=
  match sender with
  | none => (st, [])
  | some socket =>
    let request := fromUtf8 requestData
    let lines := split (qs "\r\n") request
    if lines.isEmpty then
      (st, [Effect.disconnectFromHost socket])
    else
      let requestLine := split (qs " ") (lines.headD [])
      if requestLine.length < 2 then
        (st, [Effect.disconnectFromHost socket])
      else
        let path := requestLine.getD 1 []
        sendHttpResponse socket path st

end WebServer

open WebServer

/-! ## Calls and reachable states -/

/-- One call into the server: a public member function called by the application, or a slot
called by the event loop, with what the runtime answers during the call. -/
inductive Call where
  | start (port : Nat) (bound : Option Nat)
  | stop
  | updateFrame (frame : QImage)
  | handleNewConnection (pending : Option Socket)
  | handleClientDisconnected (sender : Option Socket)
  | handleClientData (sender : Option Socket) (requestData : QByteArray)
  | sendFrameToClients (rt : Runtime)

/-- The outcome of one call. -/
def perform (fromUtf8 : QByteArray → QString) : Call → WebServer → Outcome
  | Call.start port bound, st => (WebServer.start port bound st).2
  | Call.stop, st => WebServer.stop st
  | Call.updateFrame frame, st => WebServer.updateFrame frame st
  | Call.handleNewConnection pending, st => WebServer.handleNewConnection pending st
  | Call.handleClientDisconnected sender, st => WebServer.handleClientDisconnected sender st
  | Call.handleClientData sender requestData, st =>
    WebServer.handleClientData fromUtf8 sender requestData st
  | Call.sendFrameToClients rt, st => WebServer.sendFrameToClients rt st

/-- The state after a sequence of calls. -/
def run (fromUtf8 : QByteArray → QString) (calls : List Call) (st : WebServer) : WebServer :=
  calls.foldl (fun s c => (perform fromUtf8 c s).1) st

/-- The states a freshly constructed server can be brought into. -/
def Reachable (fromUtf8 : QByteArray → QString) (st : WebServer) : Prop :=
  ∃ calls : List Call, run fromUtf8 calls WebServer.new = st

/-- What every reachable state satisfies: no connection is registered twice, and a server
that is not running has port 0. -/
def Inv (st : WebServer) : Prop :=
  st.m_streamClients.Nodup ∧ (st.m_isRunning = false → st.m_port = 0)

/-- A decoder for worked examples, exact on ASCII request bytes. -/
def asciiDecode (data : QByteArray) : QString := data.map Char.ofNat

/-! ## Request line, as the interface description words it -/

/-- The text of a request before its first CRLF (the whole text when there is none). -/
def firstLine : QString → QString
  | [] => []
  | c :: cs => if (qs "\r\n").isPrefixOf (c :: cs) then [] else c :: firstLine cs

/-- The text between the first and the second space of a line. -/
def secondField (line : QString) : QString :=
  ((line.dropWhile (fun c => c != ' ')).drop 1).takeWhile (fun c => c != ' ')

/-- The space-separated tokens of a line, read as words: maximal runs of characters other
than the space, so that `"GET "` has the single token `"GET"`. -/
def tokens (line : QString) : List QString :=
  (line.splitOnP (fun c => c == ' ')).filter (fun t => !t.isEmpty)

/-! ## A multipart-replace reader -/

/-- The line before the first CRLF of `input` and the bytes after that CRLF. -/
def readLine : QByteArray → Option (QByteArray × QByteArray)
  | [] => none
  | b :: rest =>
    if b = 13 ∧ rest.head? = some 10 then some ([], rest.tail)
    else (readLine rest).map (fun r => (b :: r.1, r.2))

/-- The header lines up to the blank line, and the bytes after the blank line. -/
def readHeaders : Nat → QByteArray → Option (List QByteArray × QByteArray)
  | 0, _ => none
  | fuel + 1, input =>
    match readLine input with
    | none => none
    | some (line, rest) =>
      if line = [] then some ([], rest)
      else (readHeaders fuel rest).map (fun r => (line :: r.1, r.2))

/-- The value of a string of ASCII decimal digits. -/
def parseNat (digits : QByteArray) : Option Nat :=
  if digits ≠ [] ∧ digits.all (fun b => decide (48 ≤ b ∧ b ≤ 57)) = true then
    some (digits.foldl (fun n b => 10 * n + (b - 48)) 0)
  else none

/-- The decimal value of the first `Content-Length` header. -/
def contentLength (headers : List QByteArray) : Option Nat :=
  headers.findSome? (fun h =>
    if (lit "Content-Length: ").isPrefixOf h then
      parseNat (h.drop (lit "Content-Length: ").length)
    else none)

/-- What a reader sees of one part: the header lines, the declared length and the body. -/
structure Part where
  headers : List QByteArray
  length : Nat
  body : QByteArray
  deriving DecidableEq, Repr

/-- Reads one part: the delimiter line, the headers up to the blank line, then as many
bytes as `Content-Length` says and the CRLF that closes the part.  Returns the part and the
bytes after it. -/
def readPart (delimiter : QByteArray) (input : QByteArray) : Option (Part × QByteArray) :=
  match readLine input with
  | none => none
  | some (line, afterLine) =>
    if line ≠ delimiter then none
    else
      match readHeaders afterLine.length afterLine with
      | none => none
      | some (headers, afterHeaders) =>
        match contentLength headers with
        | none => none
        | some n =>
          if n + 2 ≤ afterHeaders.length ∧ (afterHeaders.drop n).take 2 = [13, 10] then
            some (⟨headers, n, afterHeaders.take n⟩, afterHeaders.drop (n + 2))
          else none

/-- Reads parts until the input is used up. -/
def readParts (delimiter : QByteArray) : Nat → QByteArray → Option (List QByteArray)
  | _, [] => some []
  | 0, _ :: _ => none
  | fuel + 1, b :: rest =>
    match readPart delimiter (b :: rest) with
    | none => none
    | some (part, after) => (readParts delimiter fuel after).map (fun l => part.body :: l)

/-- Reads a whole stream body into the list of the bodies of its parts. -/
def readStream (delimiter : QByteArray) (input : QByteArray) : Option (List QByteArray) :=
  readParts delimiter input.length input

/-- The value of the `boundary` parameter in a response header: the bytes after the first
`boundary=` up to the end of that line. -/
def boundaryParam : QByteArray → Option QByteArray
  | [] => none
  | b :: rest =>
    if (lit "boundary=").isPrefixOf (b :: rest) then
      some (((b :: rest).drop (lit "boundary=").length).takeWhile (fun x => x != 13))
    else boundaryParam rest

/-- The delimiter line the multipart convention derives from a boundary value: two hyphens
and the value. -/
def delimiterLine (boundary : QByteArray) : QByteArray := lit "--" ++ boundary

/-! ## Reading an effect log -/

/-- The encoder calls recorded in a log: the image and the quality of each. -/
def encodes (log : List Effect) : List (QImage × Nat) :=
  log.filterMap (fun e => match e with
    | Effect.save image quality => some (image, quality)
    | _ => none)

/-- All writes recorded in a log, in order: the socket and the bytes handed to it. -/
def writes (log : List Effect) : List (Socket × QByteArray) :=
  log.filterMap (fun e => match e with
    | Effect.write socket data => some (socket, data)
    | _ => none)

/-- The byte strings handed to `socket` by the writes recorded in a log, in order. -/
def writesTo (socket : Socket) (log : List Effect) : List QByteArray :=
  ((writes log).filter (fun w => w.1 = socket)).map (fun w => w.2)

/-- Whether the write of `data` to `socket` is a failed or a partial one, the test
`written == -1 || written < frameData.size()`. -/
def writeFails (rt : Runtime) (data : QByteArray) (socket : Socket) : Bool :=
  decide (rt.write socket data = -1 ∨ rt.write socket data < (data.length : Int))

/-- The effects of one turn of the broadcast loop on `socket`. -/
def turn (rt : Runtime) (data : QByteArray) (socket : Socket) : List Effect :=
  if rt.connected socket then
    if writeFails rt data socket then [Effect.write socket data, Effect.deleteLater socket]
    else [Effect.write socket data, Effect.flush socket]
  else [Effect.deleteLater socket]

/-- The sockets of `l` that are connected and whose write of `data` is complete. -/
def survivors (rt : Runtime) (data : QByteArray) (l : List Socket) : List Socket :=
  l.filter (fun s => rt.connected s && !writeFails rt data s)

/-- A runtime for worked examples: sockets 0 to 9 are connected; a write to socket 3 fails,
a write to socket 2 takes three bytes, any other write takes all bytes; the encoder returns
the pixel data. -/
def demoRuntime : Runtime where
  connected := fun s => decide (s < 10)
  write := fun s data => if s = 3 then -1 else if s = 2 then 3 else (data.length : Int)
  save := fun image _ => image.getD []

/-- A running server that holds a frame and four clients. -/
def demoServer : WebServer := ⟨[1, 2, 12, 4], some [255, 216, 255], 8080, true⟩

/-! ## Frame buffer: theorems -/

/-- The frame held after publishing `frames` one after the other, starting from `st`. -/
def publishAll (frames : List QImage) (st : WebServer) : WebServer :=
  frames.foldl (fun s f => (updateFrame f s).1) st

theorem publishAll_append (fs gs : List QImage) (st : WebServer) :
    publishAll (fs ++ gs) st = publishAll gs (publishAll fs st) := by
  simp [publishAll, List.foldl_append]

/-- C3: after any sequence of `updateFrame` calls on a fresh server the held frame is the
last non-null image of the sequence, it is null when the sequence has no non-null image, and
publishing a null image changes nothing. -/
theorem C3_updateFrame_holds_last_non_null (frames : List QImage) :
    (publishAll frames WebServer.new).m_currentFrame
        = ((frames.filter (fun f => !f.isNull)).getLast?).getD none
      ∧ ((∀ f ∈ frames, f.isNull = true) →
          (publishAll frames WebServer.new).m_currentFrame.isNull = true)
      ∧ (∀ st : WebServer, updateFrame none st = (st, []))
      ∧ (∀ (st : WebServer) (f : QImage), f.isNull = false →
          (updateFrame f st).1.m_currentFrame = f) := by
  have key : ∀ (fs : List QImage) (st : WebServer),
      (publishAll fs st).m_currentFrame
        = ((fs.filter (fun f => !f.isNull)).getLast?).getD st.m_currentFrame := by
    intro fs
    induction fs using List.reverseRecOn with
    | nil => intro st; simp [publishAll]
    | append_singleton fs f ih =>
      intro st
      rw [publishAll_append, List.filter_append]
      cases f with
      | none => simpa [publishAll, updateFrame, QImage.isNull] using ih st
      | some px => simp [publishAll, updateFrame, QImage.isNull]
  refine ⟨by simpa [WebServer.new] using key frames WebServer.new, ?_, ?_, ?_⟩
  · intro h
    have hf : frames.filter (fun f => !f.isNull) = [] := by
      simp only [List.filter_eq_nil_iff]
      intro f hf
      simp [h f hf]
    rw [key, hf]
    simp [WebServer.new, QImage.isNull]
  · intro st
    simp [updateFrame, QImage.isNull]
  · intro st f hf
    simp [updateFrame, hf]

/-- C3 at a concrete sequence: two images with null images in between and at the end. -/
theorem C3_updateFrame_witness :
    (publishAll [some [1], none, some [2], none] WebServer.new).m_currentFrame = some [2]
      ∧ (publishAll [none, none] WebServer.new).m_currentFrame.isNull = true :=
  ⟨(C3_updateFrame_holds_last_non_null [some [1], none, some [2], none]).1.trans (by decide),
    (C3_updateFrame_holds_last_non_null [none, none]).2.1 (by decide)⟩

/-! ## Broadcast tick: theorems -/

/-- The loop keeps, in order, the connected sockets whose write was complete, and performs
the turns of all sockets in order. -/
theorem fanout_eq (rt : Runtime) (data : QByteArray) (rest passed : List Socket)
    (log : List Effect) :
    fanout rt data passed rest log
      = (passed ++ survivors rt data rest, log ++ rest.flatMap (turn rt data)) := by
  unfold survivors
  induction rest generalizing passed log with
  | nil => simp [fanout]
  | cons s rest ih =>
    by_cases hc : rt.connected s = true
    · by_cases hw : rt.write s data = -1 ∨ rt.write s data < (data.length : Int)
      · have hf : writeFails rt data s = true := by simp [writeFails, hw]
        simp [fanout, hc, hw, hf, ih, turn]
      · have hf : writeFails rt data s = false := by simp [writeFails, hw]
        simp [fanout, hc, hw, hf, ih, turn]
    · have hc0 : rt.connected s = false := by simpa using hc
      simp [fanout, hc0, ih, turn]

theorem sendFrameToClients_eq (rt : Runtime) (st : WebServer)
    (hframe : st.m_currentFrame.isNull = false) (hne : st.m_streamClients ≠ []) :
    sendFrameToClients rt st
      = (⟨survivors rt (frameData (rt.save st.m_currentFrame 85)) st.m_streamClients,
            st.m_currentFrame, st.m_port, st.m_isRunning⟩,
         Effect.save st.m_currentFrame 85
           :: st.m_streamClients.flatMap
                (turn rt (frameData (rt.save st.m_currentFrame 85)))) := by
  have he : st.m_streamClients.isEmpty = false := by
    cases h : st.m_streamClients with
    | nil => exact absurd h hne
    | cons a l => rfl
  simp [sendFrameToClients, hframe, he, fanout_eq, imageToJpeg]

theorem sendFrameToClients_nil (rt : Runtime) (st : WebServer)
    (h : st.m_streamClients = []) : sendFrameToClients rt st = (st, []) := by
  simp [sendFrameToClients, h]

theorem sendFrameToClients_null (rt : Runtime) (st : WebServer)
    (h : st.m_currentFrame.isNull = true) : sendFrameToClients rt st = (st, []) := by
  simp [sendFrameToClients, h]

theorem encodes_turns (rt : Runtime) (data : QByteArray) (l : List Socket) :
    encodes (l.flatMap (turn rt data)) = [] := by
  induction l with
  | nil => rfl
  | cons s l ih =>
    have h1 : encodes (turn rt data s) = [] := by
      unfold turn
      split_ifs <;> rfl
    have happ : ∀ a b : List Effect, encodes (a ++ b) = encodes a ++ encodes b := by
      intro a b
      simp [encodes, List.filterMap_append]
    rw [List.flatMap_cons, happ, h1, ih]
    rfl

theorem writes_turns (rt : Runtime) (data : QByteArray) (l : List Socket) :
    writes (l.flatMap (turn rt data))
      = (l.filter (fun s => rt.connected s)).map (fun s => (s, data)) := by
  induction l with
  | nil => rfl
  | cons s l ih =>
    have happ : ∀ a b : List Effect, writes (a ++ b) = writes a ++ writes b := by
      intro a b
      simp [writes, List.filterMap_append]
    rw [List.flatMap_cons, happ, ih]
    by_cases hc : rt.connected s = true
    · have h1 : writes (turn rt data s) = [(s, data)] := by
        unfold turn
        rw [if_pos hc]
        split_ifs <;> rfl
      rw [h1, List.filter_cons_of_pos (by simpa using hc)]
      rfl
    · have h1 : writes (turn rt data s) = [] := by
        unfold turn
        rw [if_neg hc]
        rfl
      rw [h1, List.filter_cons_of_neg (by simpa using hc)]
      rfl

theorem writesTo_map_of_nodup (data : QByteArray) (s : Socket) (l : List Socket)
    (hnd : l.Nodup) :
    ((l.map (fun x => (x, data))).filter (fun w => w.1 = s)).map (fun w => w.2)
      = if s ∈ l then [data] else [] := by
  induction l with
  | nil => rfl
  | cons a l ih =>
    have hnd2 := List.nodup_cons.mp hnd
    by_cases ha : a = s
    · subst ha
      have hnot : a ∉ l := hnd2.1
      simp [ih hnd2.2, hnot]
    · have hsa : ¬ s = a := fun h => ha h.symm
      simp [ih hnd2.2, ha, hsa]

theorem survivors_connected (rt : Runtime) (data : QByteArray) (l : List Socket) (s : Socket)
    (h : s ∈ survivors rt data l) :
    s ∈ l ∧ rt.connected s = true ∧ writeFails rt data s = false := by
  simpa [survivors, List.mem_filter] using h

/-- C1 (as stated) fails on an empty registry: the tick returns before encoding, so the
encoder is not called once but not at all. -/
theorem C1_counterexample_empty_registry :
    (⟨[], some [255, 216, 255], 8080, true⟩ : WebServer).m_currentFrame.isNull = false
      ∧ (encodes (sendFrameToClients demoRuntime
            ⟨[], some [255, 216, 255], 8080, true⟩).2).length ≠ 1 := by
  decide

/-- C1 (amended): with a non-null frame and a registry of distinct connections, one tick
calls the encoder exactly once when the registry is non-empty (not at all when it is empty),
at quality 85 on the held frame; the writes of the tick are one write of the same payload to
each connected connection, in registry order; a connected connection gets exactly that one
write, a connection that is not connected gets none; and the payload is the boundary line,
the two headers, a blank line, the encoded bytes and CRLF. -/
theorem C1_tick_encodes_once_and_writes_one_payload (rt : Runtime) (st : WebServer)
    (hframe : st.m_currentFrame.isNull = false) (hnd : st.m_streamClients.Nodup) :
    encodes (sendFrameToClients rt st).2
        = (if st.m_streamClients = [] then [] else [(st.m_currentFrame, 85)])
      ∧ writes (sendFrameToClients rt st).2
          = (st.m_streamClients.filter (fun s => rt.connected s)).map
              (fun s => (s, frameData (rt.save st.m_currentFrame 85)))
      ∧ (∀ s ∈ st.m_streamClients, rt.connected s = true →
          writesTo s (sendFrameToClients rt st).2
            = [frameData (rt.save st.m_currentFrame 85)])
      ∧ (∀ s, rt.connected s = false → writesTo s (sendFrameToClients rt st).2 = [])
      ∧ frameData (rt.save st.m_currentFrame 85)
          = lit "--boundary\r\n" ++ lit "Content-Type: image/jpeg\r\n"
              ++ lit "Content-Length: "
              ++ QByteArray.number (rt.save st.m_currentFrame 85).length
              ++ lit "\r\n" ++ lit "\r\n"
              ++ rt.save st.m_currentFrame 85 ++ lit "\r\n" := by
  have hsave : ∀ l : List Effect, encodes (Effect.save st.m_currentFrame 85 :: l)
      = (st.m_currentFrame, 85) :: encodes l := fun _ => rfl
  have hwr : ∀ l : List Effect, writes (Effect.save st.m_currentFrame 85 :: l)
      = writes l := fun _ => rfl
  have hW : writes (sendFrameToClients rt st).2
      = (st.m_streamClients.filter (fun s => rt.connected s)).map
          (fun s => (s, frameData (rt.save st.m_currentFrame 85))) := by
    by_cases hne : st.m_streamClients = []
    · rw [sendFrameToClients_nil rt st hne, hne]
      rfl
    · rw [sendFrameToClients_eq rt st hframe hne]
      simp only [hwr, writes_turns]
  refine ⟨?_, hW, ?_, ?_, ?_⟩
  · by_cases hne : st.m_streamClients = []
    · rw [sendFrameToClients_nil rt st hne, if_pos hne]
      rfl
    · rw [sendFrameToClients_eq rt st hframe hne, if_neg hne]
      simp only [hsave, encodes_turns]
  · intro s hs hc
    unfold writesTo
    rw [hW, writesTo_map_of_nodup _ _ _ (hnd.filter _)]
    have hmem : s ∈ st.m_streamClients.filter (fun s => rt.connected s) := by
      simp [List.mem_filter, hs, hc]
    rw [if_pos hmem]
  · intro s hc
    unfold writesTo
    rw [hW, writesTo_map_of_nodup _ _ _ (hnd.filter _)]
    have hmem : s ∉ st.m_streamClients.filter (fun s => rt.connected s) := by
      simp [List.mem_filter, hc]
    rw [if_neg hmem]
  · have hb : BOUNDARY ++ lit "\r\n" = lit "--boundary\r\n" := by decide
    have hc : lit "\r\n\r\n" = lit "\r\n" ++ lit "\r\n" := by decide
    simp only [frameData, hb, hc, List.append_assoc]

/-- C1 (amended), at a concrete server: four distinct clients, one of them not connected. -/
theorem C1_tick_witness :
    demoServer.m_currentFrame.isNull = false ∧ demoServer.m_streamClients.Nodup
      ∧ encodes (sendFrameToClients demoRuntime demoServer).2 = [(some [255, 216, 255], 85)]
      ∧ writesTo 12 (sendFrameToClients demoRuntime demoServer).2 = [] :=
  ⟨by decide, by decide,
    (C1_tick_encodes_once_and_writes_one_payload demoRuntime demoServer
      (by decide) (by decide)).1,
    (C1_tick_encodes_once_and_writes_one_payload demoRuntime demoServer
      (by decide) (by decide)).2.2.2.1 12 (by decide)⟩

/-- C2: with a non-null frame and write results that are `-1` or a byte count up to the
payload length, the registry after one tick is exactly the sub-list, in the original order,
of the connections that were connected and whose write returned the full payload length; a
connected connection whose write returned `-1` or fewer bytes is gone; every connection that
stays was handed the full payload and its write returned the payload length; the frame, the
port and the running flag are untouched. -/
theorem C2_tick_removes_exactly_failed_writes (rt : Runtime) (st : WebServer)
    (hframe : st.m_currentFrame.isNull = false)
    (hwrite : ∀ s ∈ st.m_streamClients,
      rt.write s (frameData (rt.save st.m_currentFrame 85)) = -1
        ∨ (0 ≤ rt.write s (frameData (rt.save st.m_currentFrame 85))
            ∧ rt.write s (frameData (rt.save st.m_currentFrame 85))
                ≤ ((frameData (rt.save st.m_currentFrame 85)).length : Int))) :
    (sendFrameToClients rt st).1.m_streamClients
        = st.m_streamClients.filter (fun s => rt.connected s
            && decide (rt.write s (frameData (rt.save st.m_currentFrame 85))
                = ((frameData (rt.save st.m_currentFrame 85)).length : Int)))
      ∧ List.Sublist (sendFrameToClients rt st).1.m_streamClients st.m_streamClients
      ∧ (∀ s, (rt.write s (frameData (rt.save st.m_currentFrame 85)) = -1
            ∨ rt.write s (frameData (rt.save st.m_currentFrame 85))
                < ((frameData (rt.save st.m_currentFrame 85)).length : Int)) →
          s ∉ (sendFrameToClients rt st).1.m_streamClients)
      ∧ (∀ s ∈ (sendFrameToClients rt st).1.m_streamClients,
          Effect.write s (frameData (rt.save st.m_currentFrame 85))
              ∈ (sendFrameToClients rt st).2
            ∧ rt.write s (frameData (rt.save st.m_currentFrame 85))
                = ((frameData (rt.save st.m_currentFrame 85)).length : Int))
      ∧ (sendFrameToClients rt st).1.m_currentFrame = st.m_currentFrame
      ∧ (sendFrameToClients rt st).1.m_port = st.m_port
      ∧ (sendFrameToClients rt st).1.m_isRunning = st.m_isRunning := by
  have hS : (sendFrameToClients rt st).1.m_streamClients
      = survivors rt (frameData (rt.save st.m_currentFrame 85)) st.m_streamClients := by
    by_cases hne : st.m_streamClients = []
    · rw [sendFrameToClients_nil rt st hne, hne]
      rfl
    · rw [sendFrameToClients_eq rt st hframe hne]
  have hrest : (sendFrameToClients rt st).1.m_currentFrame = st.m_currentFrame
      ∧ (sendFrameToClients rt st).1.m_port = st.m_port
      ∧ (sendFrameToClients rt st).1.m_isRunning = st.m_isRunning := by
    by_cases hne : st.m_streamClients = []
    · rw [sendFrameToClients_nil rt st hne]
      exact ⟨rfl, rfl, rfl⟩
    · rw [sendFrameToClients_eq rt st hframe hne]
      exact ⟨rfl, rfl, rfl⟩
  refine ⟨?_, ?_, ?_, ?_, hrest⟩
  · rw [hS]
    unfold survivors
    apply List.filter_congr
    intro s hs
    have hw := hwrite s hs
    by_cases hc : rt.connected s = true
    · simp only [hc, Bool.true_and, writeFails]
      by_cases he : rt.write s (frameData (rt.save st.m_currentFrame 85))
          = ((frameData (rt.save st.m_currentFrame 85)).length : Int)
      · simp [he]
      · have : rt.write s (frameData (rt.save st.m_currentFrame 85)) = -1
            ∨ rt.write s (frameData (rt.save st.m_currentFrame 85))
                < ((frameData (rt.save st.m_currentFrame 85)).length : Int) := by
          rcases hw with h | ⟨_, h2⟩
          · exact Or.inl h
          · exact Or.inr (lt_of_le_of_ne h2 he)
        simp [he, this]
    · have hc0 : rt.connected s = false := by simpa using hc
      simp [hc0]
  · rw [hS]
    exact List.filter_sublist _
  · intro s hbad hmem
    rw [hS] at hmem
    have h := (survivors_connected rt _ _ s hmem).2.2
    simp [writeFails, hbad] at h
  · intro s hmem
    rw [hS] at hmem
    obtain ⟨hs, hc, hf⟩ := survivors_connected rt _ _ s hmem
    have hne : st.m_streamClients ≠ [] := List.ne_nil_of_mem hs
    constructor
    · rw [sendFrameToClients_eq rt st hframe hne]
      apply List.mem_cons_of_mem
      rw [List.mem_flatMap]
      refine ⟨s, hs, ?_⟩
      simp [turn, hc, hf]
    · have hnb : ¬ (rt.write s (frameData (rt.save st.m_currentFrame 85)) = -1
          ∨ rt.write s (frameData (rt.save st.m_currentFrame 85))
              < ((frameData (rt.save st.m_currentFrame 85)).length : Int)) := by
        simpa [writeFails] using hf
      rcases hwrite s hs with h | ⟨_, h2⟩
      · exact absurd (Or.inl h) hnb
      · exact le_antisymm h2 (not_lt.mp (fun h => hnb (Or.inr h)))

/-- C2 at a concrete server: of the clients 1, 2, 12, 4, client 2 gets a partial write and
client 12 is not connected; clients 1 and 4 stay, in that order. -/
theorem C2_tick_witness :
    demoServer.m_currentFrame.isNull = false
      ∧ (∀ s ∈ demoServer.m_streamClients,
          demoRuntime.write s (frameData (demoRuntime.save demoServer.m_currentFrame 85)) = -1
            ∨ (0 ≤ demoRuntime.write s
                    (frameData (demoRuntime.save demoServer.m_currentFrame 85))
                ∧ demoRuntime.write s
                      (frameData (demoRuntime.save demoServer.m_currentFrame 85))
                    ≤ ((frameData
                        (demoRuntime.save demoServer.m_currentFrame 85)).length : Int)))
      ∧ (sendFrameToClients demoRuntime demoServer).1.m_streamClients = [1, 4] :=
  ⟨by decide, by decide,
    (C2_tick_removes_exactly_failed_writes demoRuntime demoServer
      (by decide) (by decide)).1.trans (by decide)⟩

/-- C7 (as stated) fails while no frame has been published: the tick returns at once and a
registered connection that is not connected stays in the registry. -/
theorem C7_counterexample_null_frame :
    demoRuntime.connected 12 = false
      ∧ 12 ∈ (sendFrameToClients demoRuntime ⟨[1, 12], none, 8080, true⟩).1.m_streamClients := by
  decide

/-- C7 (amended): once a frame has been published, after one broadcast tick the registry
contains no connection that was not in the connected state at tick time. -/
theorem C7_tick_leaves_no_stale_entry (rt : Runtime) (st : WebServer)
    (hframe : st.m_currentFrame.isNull = false) :
    ∀ s ∈ (sendFrameToClients rt st).1.m_streamClients, rt.connected s = true := by
  intro s hs
  by_cases hne : st.m_streamClients = []
  · rw [sendFrameToClients_nil rt st hne, hne] at hs
    simp at hs
  · rw [sendFrameToClients_eq rt st hframe hne] at hs
    exact (survivors_connected rt _ _ s hs).2.1

/-- C7 (amended) at a concrete server: client 12 is not connected and is gone after the
tick. -/
theorem C7_tick_witness :
    demoServer.m_currentFrame.isNull = false
      ∧ 12 ∈ demoServer.m_streamClients
      ∧ demoRuntime.connected 12 = false
      ∧ 12 ∉ (sendFrameToClients demoRuntime demoServer).1.m_streamClients :=
  ⟨by decide, by decide, by decide, fun h => by
    have hc := C7_tick_leaves_no_stale_entry demoRuntime demoServer (by decide) 12 h
    exact absurd hc (by decide)⟩

/-! ## Routing: theorems -/

theorem startsWith_iff (s p : QString) : startsWith s p = true ↔ p <+: s := by
  simp [startsWith, List.isPrefixOf_iff_prefix]

theorem htmlResponse_ne_notFoundResponse : htmlResponse ≠ notFoundResponse := by decide

theorem sendHtmlPage_ne_sendMjpegStream (socket : Socket) (st : WebServer) :
    sendHtmlPage socket st ≠ sendMjpegStream socket st := by
  intro h
  have h2 := congrArg Prod.snd h
  unfold sendHtmlPage sendMjpegStream at h2
  split_ifs at h2 <;> simp at h2

theorem notFound_ne_sendHtmlPage (socket : Socket) (st : WebServer) :
    ((st, [Effect.write socket notFoundResponse, Effect.flush socket,
        Effect.disconnectFromHost socket]) : Outcome) ≠ sendHtmlPage socket st := by
  intro h
  have h2 := congrArg Prod.snd h
  simp only [sendHtmlPage, List.cons.injEq, Effect.write.injEq, true_and, and_true] at h2
  exact htmlResponse_ne_notFoundResponse h2.symm

theorem notFound_ne_sendMjpegStream (socket : Socket) (st : WebServer) :
    ((st, [Effect.write socket notFoundResponse, Effect.flush socket,
        Effect.disconnectFromHost socket]) : Outcome) ≠ sendMjpegStream socket st := by
  intro h
  have h2 := congrArg Prod.snd h
  unfold sendMjpegStream at h2
  split_ifs at h2 <;> simp at h2

theorem routing_three_way (socket : Socket) (path : QString)
    (st : WebServer) :
    (sendHttpResponse socket path st = sendHtmlPage socket st
        ↔ (path = qs "/" ∨ qs "/index" <+: path))
      ∧ (sendHttpResponse socket path st = sendMjpegStream socket st
        ↔ (path = qs "/stream.mjpeg" ∨ path = qs "/stream"))
      ∧ (sendHttpResponse socket path st
          = (st, [Effect.write socket notFoundResponse, Effect.flush socket,
              Effect.disconnectFromHost socket])
        ↔ ¬ (path = qs "/" ∨ qs "/index" <+: path)
            ∧ ¬ (path = qs "/stream.mjpeg" ∨ path = qs "/stream"))
      ∧ socket ∈ (sendMjpegStream socket st).1.m_streamClients
      ∧ Effect.write socket mjpegHeader ∈ (sendMjpegStream socket st).2
      ∧ notFoundResponse
          = lit "HTTP/1.1 404 Not Found\r\n" ++ lit "Content-Type: text/plain\r\n"
              ++ lit "Connection: close\r\n" ++ lit "\r\n" ++ lit "404 Not Found"
      ∧ (lit "404 Not Found").length = 13 := by
  have hexcl : (path = qs "/stream.mjpeg" ∨ path = qs "/stream")
      → ¬ (path = qs "/" ∨ qs "/index" <+: path) := by
    rintro (h | h) <;> subst h <;> rw [← startsWith_iff] <;> decide
  refine ⟨?_, ?_, ?_, ?_, ?_, by decide, by decide⟩
  · constructor
    · intro h
      by_contra hn
      have hn2 : ¬ (path = qs "/" ∨ startsWith path (qs "/index") = true) := by
        rw [startsWith_iff]; exact hn
      unfold sendHttpResponse at h
      rw [if_neg hn2] at h
      split_ifs at h
      · exact sendHtmlPage_ne_sendMjpegStream socket st h.symm
      · exact notFound_ne_sendHtmlPage socket st h
    · intro h
      have h2 : path = qs "/" ∨ startsWith path (qs "/index") = true := by
        rw [startsWith_iff]; exact h
      unfold sendHttpResponse
      rw [if_pos h2]
  · constructor
    · intro h
      by_contra hn
      unfold sendHttpResponse at h
      rw [if_neg hn] at h
      split_ifs at h
      · exact sendHtmlPage_ne_sendMjpegStream socket st h
      · exact notFound_ne_sendMjpegStream socket st h
    · intro h
      have hn2 : ¬ (path = qs "/" ∨ startsWith path (qs "/index") = true) := by
        rw [startsWith_iff]; exact hexcl h
      unfold sendHttpResponse
      rw [if_neg hn2, if_pos h]
  · constructor
    · intro h
      unfold sendHttpResponse at h
      split_ifs at h with h1 h2
      · exact absurd h.symm (notFound_ne_sendHtmlPage socket st)
      · exact absurd h.symm (notFound_ne_sendMjpegStream socket st)
      · rw [startsWith_iff] at h1
        exact ⟨h1, h2⟩
    · rintro ⟨h1, h2⟩
      have hn2 : ¬ (path = qs "/" ∨ startsWith path (qs "/index") = true) := by
        rw [startsWith_iff]; exact h1
      unfold sendHttpResponse
      rw [if_neg hn2, if_neg h2]
  · unfold sendMjpegStream
    split_ifs with h
    · simp
    · simpa using h
  · unfold sendMjpegStream
    split_ifs <;> simp

set_option maxRecDepth 200000 in
theorem html_utf8_length : (toUtf8 html).length = 1507 := by decide

set_option maxRecDepth 200000 in
theorem html_utf8_img :
    ((toUtf8 html).drop 1368).take 36 = lit "<img id=\"stream\" src=\"/stream.mjpeg\"" := by
  decide

theorem html_utf8_doctype : (toUtf8 html).take 15 = lit "<!DOCTYPE html>" := by decide

theorem number_1507 : QByteArray.number 1507 = lit "1507" := by decide

theorem htmlResponse_eq :
    htmlResponse
      = lit "HTTP/1.1 200 OK\r\n" ++ lit "Content-Type: text/html; charset=utf-8\r\n"
          ++ lit "Content-Length: 1507\r\n" ++ lit "Connection: close\r\n" ++ lit "\r\n"
          ++ toUtf8 html := by
  have h1 : lit "HTTP/1.1 200 OK\r\nContent-Type: text/html; charset=utf-8\r\nContent-Length: "
        ++ lit "1507" ++ lit "\r\nConnection: close\r\n\r\n"
      = lit "HTTP/1.1 200 OK\r\n" ++ lit "Content-Type: text/html; charset=utf-8\r\n"
          ++ lit "Content-Length: 1507\r\n" ++ lit "Connection: close\r\n" ++ lit "\r\n" := by
    decide
  unfold htmlResponse
  rw [html_utf8_length, number_1507, h1]

theorem mjpegHeader_eq :
    mjpegHeader
      = lit "HTTP/1.1 200 OK\r\n"
          ++ lit "Content-Type: multipart/x-mixed-replace; boundary=--boundary\r\n"
          ++ lit "Cache-Control: no-cache\r\n" ++ lit "Connection: keep-alive\r\n"
          ++ lit "\r\n" := by
  decide

theorem sendMjpegStream_eq (socket : Socket) (st : WebServer) :
    sendMjpegStream socket st
      = if socket ∈ st.m_streamClients then
          (st, [Effect.write socket mjpegHeader, Effect.flush socket])
        else
          (⟨st.m_streamClients ++ [socket], st.m_currentFrame, st.m_port, st.m_isRunning⟩,
            [Effect.write socket mjpegHeader, Effect.flush socket,
              Effect.clientConnected socket]) := by
  unfold sendMjpegStream
  by_cases h : socket ∈ st.m_streamClients
  · simp [h]
  · simp [h]

/-- C6: `sendHttpResponse` is a total three-way decision on the path.  It does what
`sendHtmlPage` does exactly when the path is `/` or starts with `/index`; it does what
`sendMjpegStream` does (after which the connection is registered) exactly when the path is
`/stream.mjpeg` or `/stream`; for every other path it leaves the state, hence the registry,
as it was, writes the 404 response, flushes and disconnects; that response is the status
line `404 Not Found`, `Content-Type: text/plain`, `Connection: close`, a blank line and the
13 bytes `404 Not Found`.  Serving the page is: the state is left as it was, the page
response is written, flushed, and the socket disconnected; the page response is the status
line `200 OK`, `Content-Type: text/html; charset=utf-8`, `Content-Length: 1507`,
`Connection: close`, a blank line and the 1507 bytes of the page, which open with the
doctype and contain the `<img>` tag that points at `/stream.mjpeg`.  Starting the stream is:
the stream header (`200 OK`, `multipart/x-mixed-replace` with the boundary parameter,
`Cache-Control: no-cache`, `Connection: keep-alive`, a blank line) is written and flushed,
the socket is not disconnected, and it is appended to the registry with a `clientConnected`
when it was not yet registered. -/
theorem C6_routing_is_a_total_three_way_decision (socket : Socket) (path : QString)
    (st : WebServer) :
    (sendHttpResponse socket path st = sendHtmlPage socket st
        ↔ (path = qs "/" ∨ qs "/index" <+: path))
      ∧ (sendHttpResponse socket path st = sendMjpegStream socket st
        ↔ (path = qs "/stream.mjpeg" ∨ path = qs "/stream"))
      ∧ (sendHttpResponse socket path st
          = (st, [Effect.write socket notFoundResponse, Effect.flush socket,
              Effect.disconnectFromHost socket])
        ↔ ¬ (path = qs "/" ∨ qs "/index" <+: path)
            ∧ ¬ (path = qs "/stream.mjpeg" ∨ path = qs "/stream"))
      ∧ socket ∈ (sendMjpegStream socket st).1.m_streamClients
      ∧ Effect.write socket mjpegHeader ∈ (sendMjpegStream socket st).2
      ∧ notFoundResponse
          = lit "HTTP/1.1 404 Not Found\r\n" ++ lit "Content-Type: text/plain\r\n"
              ++ lit "Connection: close\r\n" ++ lit "\r\n" ++ lit "404 Not Found"
      ∧ (lit "404 Not Found").length = 13
      ∧ sendHtmlPage socket st
          = (st, [Effect.write socket htmlResponse, Effect.flush socket,
              Effect.disconnectFromHost socket])
      ∧ ((path = qs "/" ∨ qs "/index" <+: path) →
          sendHttpResponse socket path st
            = (st, [Effect.write socket htmlResponse, Effect.flush socket,
                Effect.disconnectFromHost socket]))
      ∧ htmlResponse
          = lit "HTTP/1.1 200 OK\r\n" ++ lit "Content-Type: text/html; charset=utf-8\r\n"
              ++ lit "Content-Length: 1507\r\n" ++ lit "Connection: close\r\n" ++ lit "\r\n"
              ++ toUtf8 html
      ∧ (toUtf8 html).length = 1507
      ∧ (toUtf8 html).take 15 = lit "<!DOCTYPE html>"
      ∧ ((toUtf8 html).drop 1368).take 36 = lit "<img id=\"stream\" src=\"/stream.mjpeg\""
      ∧ sendMjpegStream socket st
          = (if socket ∈ st.m_streamClients then
              (st, [Effect.write socket mjpegHeader, Effect.flush socket])
            else
              (⟨st.m_streamClients ++ [socket], st.m_currentFrame, st.m_port,
                  st.m_isRunning⟩,
                [Effect.write socket mjpegHeader, Effect.flush socket,
                  Effect.clientConnected socket]))
      ∧ mjpegHeader
          = lit "HTTP/1.1 200 OK\r\n"
              ++ lit "Content-Type: multipart/x-mixed-replace; boundary=--boundary\r\n"
              ++ lit "Cache-Control: no-cache\r\n" ++ lit "Connection: keep-alive\r\n"
              ++ lit "\r\n" := by
  obtain ⟨h1, h2, h3, h4, h5, h6, h7⟩ := routing_three_way socket path st
  refine ⟨h1, h2, h3, h4, h5, h6, h7, rfl, ?_, htmlResponse_eq, html_utf8_length,
    html_utf8_doctype, html_utf8_img, sendMjpegStream_eq socket st, mjpegHeader_eq⟩
  intro hp
  exact h1.mpr hp

/-- C6 at three concrete paths: the page, the stream and an unknown path. -/
theorem C6_routing_witness :
    sendHttpResponse 7 (qs "/index.html") WebServer.new
        = (WebServer.new, [Effect.write 7 htmlResponse, Effect.flush 7,
            Effect.disconnectFromHost 7])
      ∧ sendHttpResponse 7 (qs "/stream") WebServer.new
          = (⟨[7], none, 0, false⟩, [Effect.write 7 mjpegHeader, Effect.flush 7,
              Effect.clientConnected 7])
      ∧ sendHttpResponse 7 (qs "/nope") WebServer.new
          = (WebServer.new, [Effect.write 7 notFoundResponse, Effect.flush 7,
              Effect.disconnectFromHost 7]) :=
  ⟨(C6_routing_is_a_total_three_way_decision 7 (qs "/index.html") WebServer.new).2.2.2.2.2.2.2.2.1
      (Or.inr (by decide)),
    ((C6_routing_is_a_total_three_way_decision 7 (qs "/stream") WebServer.new).2.1.mpr
      (Or.inr rfl)).trans
      ((C6_routing_is_a_total_three_way_decision 7 (qs "/stream")
        WebServer.new).2.2.2.2.2.2.2.2.2.2.2.2.2.1.trans (by decide)),
    (C6_routing_is_a_total_three_way_decision 7 (qs "/nope") WebServer.new).2.2.1.mpr
      (by decide)⟩

/-! ## Registry and lifecycle: theorems -/

theorem inv_new : Inv WebServer.new := by
  simp [Inv, WebServer.new]

theorem inv_start (port : Nat) (bound : Option Nat) (st : WebServer) (h : Inv st) :
    Inv (start port bound st).2.1 := by
  unfold start
  split_ifs
  · exact h
  · cases bound with
    | none => exact h
    | some p => exact ⟨h.1, fun hr => by simp at hr⟩

theorem inv_stop (st : WebServer) (h : Inv st) : Inv (stop st).1 := by
  unfold stop
  split_ifs
  · exact h
  · exact ⟨List.nodup_nil, fun _ => rfl⟩

theorem inv_updateFrame (frame : QImage) (st : WebServer) (h : Inv st) :
    Inv (updateFrame frame st).1 := by
  unfold updateFrame
  split_ifs
  · exact h
  · exact h

theorem inv_handleNewConnection (pending : Option Socket) (st : WebServer) (h : Inv st) :
    Inv (handleNewConnection pending st).1 := by
  cases pending <;> exact h

theorem inv_handleClientDisconnected (sender : Option Socket) (st : WebServer) (h : Inv st) :
    Inv (handleClientDisconnected sender st).1 := by
  cases sender with
  | none => exact h
  | some socket => exact ⟨h.1.filter _, h.2⟩

theorem inv_sendMjpegStream (socket : Socket) (st : WebServer) (h : Inv st) :
    Inv (sendMjpegStream socket st).1 := by
  unfold sendMjpegStream
  split_ifs with hc
  · refine ⟨?_, h.2⟩
    have hnot : socket ∉ st.m_streamClients := by simpa using hc
    exact List.Nodup.append h.1 (List.nodup_singleton socket) (by simpa using hnot)
  · exact h

theorem inv_sendHttpResponse (socket : Socket) (path : QString) (st : WebServer)
    (h : Inv st) : Inv (sendHttpResponse socket path st).1 := by
  unfold sendHttpResponse
  split_ifs
  · exact h
  · exact inv_sendMjpegStream socket st h
  · exact h

theorem inv_handleClientData (fromUtf8 : QByteArray → QString) (sender : Option Socket)
    (requestData : QByteArray) (st : WebServer) (h : Inv st) :
    Inv (handleClientData fromUtf8 sender requestData st).1 := by
  cases sender with
  | none => exact h
  | some socket =>
    simp only [handleClientData]
    split_ifs
    · exact h
    · exact h
    · exact inv_sendHttpResponse socket _ st h

theorem inv_sendFrameToClients (rt : Runtime) (st : WebServer) (h : Inv st) :
    Inv (sendFrameToClients rt st).1 := by
  by_cases hnull : st.m_currentFrame.isNull = true
  · rw [sendFrameToClients_null rt st hnull]; exact h
  · by_cases hne : st.m_streamClients = []
    · rw [sendFrameToClients_nil rt st hne]; exact h
    · rw [sendFrameToClients_eq rt st (by simpa using hnull) hne]
      exact ⟨h.1.filter _, h.2⟩

theorem inv_perform (fromUtf8 : QByteArray → QString) (c : Call) (st : WebServer)
    (h : Inv st) : Inv (perform fromUtf8 c st).1 := by
  cases c with
  | start port bound => exact inv_start port bound st h
  | stop => exact inv_stop st h
  | updateFrame frame => exact inv_updateFrame frame st h
  | handleNewConnection pending => exact inv_handleNewConnection pending st h
  | handleClientDisconnected sender => exact inv_handleClientDisconnected sender st h
  | handleClientData sender requestData =>
    exact inv_handleClientData fromUtf8 sender requestData st h
  | sendFrameToClients rt => exact inv_sendFrameToClients rt st h

theorem inv_run (fromUtf8 : QByteArray → QString) (calls : List Call) (st : WebServer)
    (h : Inv st) : Inv (run fromUtf8 calls st) := by
  induction calls generalizing st with
  | nil => exact h
  | cons c calls ih => exact ih _ (inv_perform fromUtf8 c st h)

theorem inv_of_reachable (fromUtf8 : QByteArray → QString) (st : WebServer)
    (h : Reachable fromUtf8 st) : Inv st := by
  obtain ⟨calls, rfl⟩ := h
  exact inv_run fromUtf8 calls _ inv_new

theorem removeAll_not_mem (l : List Socket) (x : Socket) : x ∉ removeAll l x := by
  simp [removeAll, List.mem_filter]

theorem removeAll_of_not_mem (l : List Socket) (x : Socket) (h : x ∉ l) :
    removeAll l x = l := by
  unfold removeAll
  rw [List.filter_eq_self]
  intro y hy
  have : y ≠ x := fun e => h (e ▸ hy)
  simpa using this

/-- C5: in every state reachable by calls of `start`, `stop`, `updateFrame`, the three
socket slots and the broadcast tick, no connection is registered twice; `sendMjpegStream`
on a registered socket leaves the state unchanged and raises no `clientConnected`; after
registering the same socket twice it occurs once and the second call raised no
`clientConnected`; `handleClientDisconnected` leaves no occurrence of its socket, and leaves
the state unchanged when the socket is not registered. -/
theorem C5_registry_never_holds_a_duplicate (fromUtf8 : QByteArray → QString)
    (st : WebServer) (socket : Socket) (h : Reachable fromUtf8 st) :
    st.m_streamClients.Nodup
      ∧ (socket ∈ st.m_streamClients →
          (sendMjpegStream socket st).1 = st
            ∧ Effect.clientConnected socket ∉ (sendMjpegStream socket st).2)
      ∧ (sendMjpegStream socket (sendMjpegStream socket st).1).1
          = (sendMjpegStream socket st).1
      ∧ Effect.clientConnected socket
          ∉ (sendMjpegStream socket (sendMjpegStream socket st).1).2
      ∧ (sendMjpegStream socket (sendMjpegStream socket st).1).1.m_streamClients.count socket
          = 1
      ∧ socket ∉ (handleClientDisconnected (some socket) st).1.m_streamClients
      ∧ (socket ∉ st.m_streamClients →
          (handleClientDisconnected (some socket) st).1 = st) := by
  have hreg : ∀ t : WebServer, socket ∈ t.m_streamClients →
      (sendMjpegStream socket t).1 = t
        ∧ Effect.clientConnected socket ∉ (sendMjpegStream socket t).2 := by
    intro t ht
    simp [sendMjpegStream, ht]
  have hmem : socket ∈ (sendMjpegStream socket st).1.m_streamClients := by
    unfold sendMjpegStream
    split_ifs with hc
    · simp
    · simpa using hc
  have hnd : (sendMjpegStream socket st).1.m_streamClients.Nodup :=
    (inv_sendMjpegStream socket st (inv_of_reachable fromUtf8 st h)).1
  refine ⟨(inv_of_reachable fromUtf8 st h).1, hreg st, (hreg _ hmem).1, (hreg _ hmem).2,
    ?_, removeAll_not_mem _ _, ?_⟩
  · rw [(hreg _ hmem).1]
    exact List.count_eq_one_of_mem hnd hmem
  · intro hn
    simp only [handleClientDisconnected, removeAll_of_not_mem _ _ hn]

/-- C5 at a concrete state: a running server on which socket 7 asked for the stream. -/
theorem C5_registry_witness :
    Reachable asciiDecode ⟨[7], none, 8080, true⟩
      ∧ (sendMjpegStream 7 ⟨[7], none, 8080, true⟩).1 = ⟨[7], none, 8080, true⟩
      ∧ 7 ∉ (handleClientDisconnected (some 7) ⟨[7], none, 8080, true⟩).1.m_streamClients :=
  ⟨⟨[Call.start 8080 (some 8080), Call.handleNewConnection (some 7),
      Call.handleClientData (some 7) (lit "GET /stream HTTP/1.1\r\n\r\n")], by decide⟩,
    ((C5_registry_never_holds_a_duplicate asciiDecode ⟨[7], none, 8080, true⟩ 7
      ⟨[Call.start 8080 (some 8080), Call.handleNewConnection (some 7),
        Call.handleClientData (some 7) (lit "GET /stream HTTP/1.1\r\n\r\n")],
        by decide⟩).2.1 (by decide)).1,
    (C5_registry_never_holds_a_duplicate asciiDecode ⟨[7], none, 8080, true⟩ 7
      ⟨[Call.start 8080 (some 8080), Call.handleNewConnection (some 7),
        Call.handleClientData (some 7) (lit "GET /stream HTTP/1.1\r\n\r\n")],
        by decide⟩).2.2.2.2.2.1⟩

theorem stop_of_not_running (st : WebServer) (h : st.m_isRunning = false) :
    stop st = (st, []) := by
  simp [stop, h]

theorem stop_of_running (st : WebServer) (h : st.m_isRunning = true) :
    stop st = (⟨[], st.m_currentFrame, 0, false⟩,
      [Effect.timerStop]
        ++ st.m_streamClients.flatMap
            (fun client => [Effect.disconnectFromHost client, Effect.deleteLater client])
        ++ [Effect.serverClose, Effect.serverStopped]) := by
  simp [stop, h]

theorem count_serverStopped_disconnects (l : List Socket) :
    (l.flatMap (fun client => [Effect.disconnectFromHost client, Effect.deleteLater client])
      ).count Effect.serverStopped = 0 := by
  rw [List.count_eq_zero]
  intro hmem
  rw [List.mem_flatMap] at hmem
  obtain ⟨c, _, hc⟩ := hmem
  simp at hc

/-- C9 (as stated) fails in a reachable state: a socket accepted before `stop()` asks for the
stream afterwards and is registered although the server is not running; `stop()` then
returns at once and the registry is not empty. -/
theorem C9_counterexample_registered_while_stopped :
    run asciiDecode
        [Call.start 8080 (some 8080), Call.handleNewConnection (some 7), Call.stop,
          Call.handleClientData (some 7) (lit "GET /stream HTTP/1.1\r\n\r\n")]
        WebServer.new = ⟨[7], none, 0, false⟩
      ∧ (stop ⟨[7], none, 0, false⟩).1.m_streamClients ≠ [] := by
  decide

/-- C9 (amended): in every reachable state, after `stop()` the server is not running and
its port is 0, and a second `stop()` changes nothing and raises nothing; when the server was
running, `stop()` disconnects every registered client, empties the registry and raises
`serverStopped` once; when the server is not running, `stop()` is a no-op; `start()` on a
running server returns true and changes nothing; `start()` whose bind fails on a server
that is not running returns false and leaves the state, hence `isRunning()`, as it was. -/
theorem C9_stop_is_idempotent_and_start_is_guarded (fromUtf8 : QByteArray → QString)
    (st : WebServer) (port : Nat) (bound : Option Nat) (h : Reachable fromUtf8 st) :
    isRunning (stop st).1 = false
      ∧ serverPort (stop st).1 = 0
      ∧ stop (stop st).1 = ((stop st).1, [])
      ∧ (st.m_isRunning = true →
          (stop st).1.m_streamClients = []
            ∧ (∀ client ∈ st.m_streamClients,
                Effect.disconnectFromHost client ∈ (stop st).2)
            ∧ (stop st).2.count Effect.serverStopped = 1)
      ∧ (st.m_isRunning = false → stop st = (st, []))
      ∧ (st.m_isRunning = true → start port bound st = (true, st, []))
      ∧ (st.m_isRunning = false →
          (start port none st).1 = false
            ∧ (start port none st).2.1 = st
            ∧ isRunning (start port none st).2.1 = false) := by
  have hinv := inv_of_reachable fromUtf8 st h
  have hstopped : (stop st).1.m_isRunning = false := by
    cases hr : st.m_isRunning with
    | false => rw [stop_of_not_running st hr]; exact hr
    | true => rw [stop_of_running st hr]
  refine ⟨hstopped, ?_, stop_of_not_running _ hstopped, ?_, stop_of_not_running st, ?_, ?_⟩
  · exact (inv_stop st hinv).2 hstopped
  · intro hr
    rw [stop_of_running st hr]
    refine ⟨rfl, ?_, ?_⟩
    · intro client hc
      apply List.mem_append_left
      apply List.mem_append_right
      rw [List.mem_flatMap]
      exact ⟨client, hc, by simp⟩
    · rw [List.count_append, List.count_append, count_serverStopped_disconnects]
      rfl
  · intro hr
    simp [start, hr]
  · intro hr
    simp [start, hr, isRunning]

/-- C9 (amended) at a concrete state: a running server with two clients. -/
theorem C9_stop_witness :
    Reachable asciiDecode ⟨[7, 9], none, 8080, true⟩
      ∧ (stop ⟨[7, 9], none, 8080, true⟩).1.m_streamClients = []
      ∧ stop (stop ⟨[7, 9], none, 8080, true⟩).1 = ((stop ⟨[7, 9], none, 8080, true⟩).1, []) :=
  ⟨⟨[Call.start 8080 (some 8080),
      Call.handleClientData (some 7) (lit "GET /stream HTTP/1.1\r\n\r\n"),
      Call.handleClientData (some 9) (lit "GET /stream.mjpeg HTTP/1.1\r\n\r\n")], by decide⟩,
    ((C9_stop_is_idempotent_and_start_is_guarded asciiDecode ⟨[7, 9], none, 8080, true⟩
      8080 none
      ⟨[Call.start 8080 (some 8080),
        Call.handleClientData (some 7) (lit "GET /stream HTTP/1.1\r\n\r\n"),
        Call.handleClientData (some 9) (lit "GET /stream.mjpeg HTTP/1.1\r\n\r\n")],
        by decide⟩).2.2.2.1 rfl).1,
    (C9_stop_is_idempotent_and_start_is_guarded asciiDecode ⟨[7, 9], none, 8080, true⟩
      8080 none
      ⟨[Call.start 8080 (some 8080),
        Call.handleClientData (some 7) (lit "GET /stream HTTP/1.1\r\n\r\n"),
        Call.handleClientData (some 9) (lit "GET /stream.mjpeg HTTP/1.1\r\n\r\n")],
        by decide⟩).2.2.1⟩

/-! ## Request parsing: theorems -/

theorem splitGo_ne_nil (sep s : QString) (skip : Nat) : splitGo sep s skip ≠ [] := by
  induction s generalizing skip with
  | nil => simp [splitGo]
  | cons c cs ih =>
    cases skip with
    | zero =>
      unfold splitGo
      split_ifs <;> simp
    | succ k =>
      unfold splitGo
      exact ih k

theorem split_crlf_head (s : QString) : (split (qs "\r\n") s).headD [] = firstLine s := by
  unfold split
  induction s with
  | nil => rfl
  | cons c cs ih =>
    unfold splitGo firstLine
    split_ifs
    · rfl
    · simp only [List.headD_cons, ih]

theorem space_isPrefixOf (c : Char) (cs : QString) :
    (qs " ").isPrefixOf (c :: cs) = decide (c = ' ') := by
  have h : qs " " = [' '] := rfl
  rw [h]
  by_cases hc : c = ' '
  · subst hc
    simp [List.isPrefixOf]
  · have hc2 : ¬ ' ' = c := fun e => hc e.symm
    simp [List.isPrefixOf, hc, hc2]

theorem split_space_length (s : QString) :
    (split (qs " ") s).length = 1 + s.count ' ' := by
  unfold split
  induction s with
  | nil => rfl
  | cons c cs ih =>
    have hlen : (qs " ").length - 1 = 0 := rfl
    unfold splitGo
    rw [space_isPrefixOf, hlen]
    by_cases hc : c = ' '
    · subst hc
      simp [ih]
      omega
    · have hc2 : ¬ ' ' = c := fun e => hc e.symm
      have hpos : 0 < (splitGo (qs " ") cs 0).length :=
        List.length_pos.mpr (splitGo_ne_nil _ _ _)
      simp only [hc, decide_False, Bool.false_eq_true, if_false, List.length_cons,
        List.length_tail, List.count_cons_of_ne hc2]
      omega

theorem split_space_short_iff (s : QString) : (split (qs " ") s).length < 2 ↔ ' ' ∉ s := by
  rw [split_space_length, ← List.count_eq_zero]
  omega

theorem split_space_head (s : QString) :
    (split (qs " ") s).headD [] = s.takeWhile (fun c => c != ' ') := by
  unfold split
  induction s with
  | nil => rfl
  | cons c cs ih =>
    unfold splitGo
    rw [space_isPrefixOf]
    by_cases hc : c = ' '
    · subst hc
      simp
    · have ih2 : (splitGo (qs " ") cs 0).head?.getD []
          = List.takeWhile (fun c => c != ' ') cs := by simpa using ih
      simp [hc, ih2, List.takeWhile_cons]

theorem split_space_second (s : QString) (h : ' ' ∈ s) :
    (split (qs " ") s).getD 1 [] = secondField s := by
  unfold split
  induction s with
  | nil => simp at h
  | cons c cs ih =>
    have hlen : (qs " ").length - 1 = 0 := rfl
    unfold splitGo
    rw [space_isPrefixOf, hlen]
    by_cases hc : c = ' '
    · subst hc
      have hh := split_space_head cs
      unfold split at hh
      have hne := splitGo_ne_nil (qs " ") cs 0
      cases hs : splitGo (qs " ") cs 0 with
      | nil => exact absurd hs hne
      | cons a l =>
        rw [hs] at hh
        simp only [List.headD_cons] at hh
        simp [secondField, List.dropWhile_cons, hh]
    · have hmem : ' ' ∈ cs := by
        rcases List.mem_cons.mp h with e | e
        · exact absurd e.symm hc
        · exact e
      have hne := splitGo_ne_nil (qs " ") cs 0
      have ih2 := ih hmem
      cases hs : splitGo (qs " ") cs 0 with
      | nil => exact absurd hs hne
      | cons a l =>
        rw [hs] at ih2
        have hsf : secondField (c :: cs) = secondField cs := by
          simp [secondField, List.dropWhile_cons, hc]
        rw [hsf, ← ih2]
        simp [hc]

theorem handleClientData_eq (fromUtf8 : QByteArray → QString) (socket : Socket)
    (requestData : QByteArray) (st : WebServer) :
    handleClientData fromUtf8 (some socket) requestData st
      = if ' ' ∈ firstLine (fromUtf8 requestData) then
          sendHttpResponse socket (secondField (firstLine (fromUtf8 requestData))) st
        else (st, [Effect.disconnectFromHost socket]) := by
  have hne : (split (qs "\r\n") (fromUtf8 requestData)).isEmpty = false := by
    have := splitGo_ne_nil (qs "\r\n") (fromUtf8 requestData) 0
    unfold split
    cases hs : splitGo (qs "\r\n") (fromUtf8 requestData) 0 with
    | nil => exact absurd hs this
    | cons a l => rfl
  simp only [handleClientData, hne, Bool.false_eq_true, if_false, split_crlf_head]
  by_cases hsp : ' ' ∈ firstLine (fromUtf8 requestData)
  · have hlen : ¬ (split (qs " ") (firstLine (fromUtf8 requestData))).length < 2 := by
      rw [split_space_short_iff]; exact not_not.mpr hsp
    rw [if_neg hlen, if_pos hsp, split_space_second _ hsp]
  · have hlen : (split (qs " ") (firstLine (fromUtf8 requestData))).length < 2 := by
      rw [split_space_short_iff]; exact hsp
    rw [if_pos hlen, if_neg hsp]

/-- C8 (as stated) fails on the request `"GET "`: its first line has the single token
`GET`, yet the server answers with the 404 response instead of disconnecting silently. -/
theorem C8_counterexample_trailing_space :
    (tokens (firstLine (asciiDecode (lit "GET ")))).length < 2
      ∧ handleClientData asciiDecode (some 7) (lit "GET ") WebServer.new
          = (WebServer.new, [Effect.write 7 notFoundResponse, Effect.flush 7,
              Effect.disconnectFromHost 7]) := by
  decide

/-- C8 (amended): the pieces of the first line are what splitting at every single space
gives, empty pieces included, so a line has fewer than two pieces exactly when it contains
no space.  For every request whose first line contains no space (the empty request
included) `handleClientData` only disconnects the socket: no byte is written and the state
is unchanged.  For every request whose first line contains a space the call is
`sendHttpResponse` on the text between the first and the second space of that line, and two
requests with the same first line have the same outcome. -/
theorem C8_only_the_request_line_is_read (fromUtf8 : QByteArray → QString)
    (socket : Socket) (requestData : QByteArray) (st : WebServer) :
    ((split (qs " ") (firstLine (fromUtf8 requestData))).length < 2
        ↔ ' ' ∉ firstLine (fromUtf8 requestData))
      ∧ (' ' ∉ firstLine (fromUtf8 requestData) →
          handleClientData fromUtf8 (some socket) requestData st
            = (st, [Effect.disconnectFromHost socket]))
      ∧ (fromUtf8 requestData = [] →
          handleClientData fromUtf8 (some socket) requestData st
            = (st, [Effect.disconnectFromHost socket]))
      ∧ (' ' ∈ firstLine (fromUtf8 requestData) →
          handleClientData fromUtf8 (some socket) requestData st
            = sendHttpResponse socket (secondField (firstLine (fromUtf8 requestData))) st)
      ∧ (∀ other : QByteArray,
          firstLine (fromUtf8 other) = firstLine (fromUtf8 requestData) →
          handleClientData fromUtf8 (some socket) other st
            = handleClientData fromUtf8 (some socket) requestData st) := by
  refine ⟨split_space_short_iff _, ?_, ?_, ?_, ?_⟩
  · intro h
    rw [handleClientData_eq, if_neg h]
  · intro h
    rw [handleClientData_eq, h]
    rfl
  · intro h
    rw [handleClientData_eq, if_pos h]
  · intro other h
    rw [handleClientData_eq, handleClientData_eq, h]

/-- C8 (amended) at two concrete requests: a stream request with a further header line,
and a request whose first line has no space. -/
theorem C8_request_line_witness :
    ' ' ∈ firstLine (asciiDecode (lit "GET /stream HTTP/1.1\r\nHost: a\r\n\r\n"))
      ∧ handleClientData asciiDecode (some 7)
            (lit "GET /stream HTTP/1.1\r\nHost: a\r\n\r\n") WebServer.new
          = sendHttpResponse 7 (qs "/stream") WebServer.new
      ∧ ' ' ∉ firstLine (asciiDecode (lit "PING\r\n\r\n"))
      ∧ handleClientData asciiDecode (some 7) (lit "PING\r\n\r\n") WebServer.new
          = (WebServer.new, [Effect.disconnectFromHost 7]) :=
  ⟨by decide,
    ((C8_only_the_request_line_is_read asciiDecode 7
      (lit "GET /stream HTTP/1.1\r\nHost: a\r\n\r\n") WebServer.new).2.2.2.1
        (by decide)).trans (by decide),
    by decide,
    (C8_only_the_request_line_is_read asciiDecode 7 (lit "PING\r\n\r\n")
      WebServer.new).2.1 (by decide)⟩

/-! ## Multipart framing: theorems -/

theorem numberAux_append (fuel n : Nat) (acc : QByteArray) :
    numberAux fuel n acc = numberAux fuel n [] ++ acc := by
  induction fuel generalizing n acc with
  | zero => simp [numberAux]
  | succ k ih =>
    unfold numberAux
    split_ifs
    · simp
    · rw [ih (n / 10) ((48 + n % 10) :: acc), ih (n / 10) [48 + n % 10]]
      simp

theorem numberAux_digits (fuel n : Nat) :
    ∀ b ∈ numberAux fuel n [], 48 ≤ b ∧ b ≤ 57 := by
  induction fuel generalizing n with
  | zero => simp [numberAux]
  | succ k ih =>
    intro b hb
    unfold numberAux at hb
    have hd : 48 ≤ 48 + n % 10 ∧ 48 + n % 10 ≤ 57 := by omega
    split_ifs at hb
    · simp at hb
      rw [hb]
      exact hd
    · rw [numberAux_append] at hb
      rcases List.mem_append.mp hb with h | h
      · exact ih (n / 10) b h
      · simp at h
        rw [h]
        exact hd

theorem numberAux_value (fuel n : Nat) (h : n < fuel) :
    (numberAux fuel n []).foldl (fun m b => 10 * m + (b - 48)) 0 = n
      ∧ numberAux fuel n [] ≠ [] := by
  induction fuel generalizing n with
  | zero => omega
  | succ k ih =>
    unfold numberAux
    split_ifs with h0
    · refine ⟨?_, by simp⟩
      simp
      omega
    · have hk : n / 10 < k := by omega
      rw [numberAux_append]
      refine ⟨?_, by simp⟩
      rw [List.foldl_append, (ih (n / 10) hk).1]
      simp
      omega

theorem digitChar_toNat (d : Nat) (h : d < 10) : (Nat.digitChar d).toNat = 48 + d := by
  interval_cases d <;> rfl

theorem numberAux_eq_toDigitsCore (fuel n : Nat) (ds : List Char) :
    numberAux fuel n (ds.map Char.toNat) = (Nat.toDigitsCore 10 fuel n ds).map Char.toNat := by
  induction fuel generalizing n ds with
  | zero => rfl
  | succ k ih =>
    have hd : (Nat.digitChar (n % 10)).toNat = 48 + n % 10 :=
      digitChar_toNat _ (Nat.mod_lt _ (by decide))
    unfold numberAux Nat.toDigitsCore
    by_cases h0 : n / 10 = 0
    · simp [h0, hd]
    · have hstep := ih (n / 10) (Nat.digitChar (n % 10) :: ds)
      simp only [List.map_cons, hd] at hstep
      simp only [h0, if_false, hstep]

/-- The model of `QByteArray::number` writes the usual decimal numeral. -/
theorem number_eq_toDigits (n : Nat) :
    QByteArray.number n = (Nat.toDigits 10 n).map Char.toNat := by
  unfold QByteArray.number Nat.toDigits
  exact numberAux_eq_toDigitsCore (n + 1) n []

theorem parseNat_number (n : Nat) : parseNat (QByteArray.number n) = some n := by
  unfold parseNat QByteArray.number
  have hv := numberAux_value (n + 1) n (by omega)
  have hd : (numberAux (n + 1) n []).all (fun b => decide (48 ≤ b ∧ b ≤ 57)) = true := by
    rw [List.all_eq_true]
    intro b hb
    simpa using numberAux_digits (n + 1) n b hb
  rw [if_pos ⟨hv.2, hd⟩, hv.1]

theorem readLine_append (l rest : QByteArray) (h : 13 ∉ l) :
    readLine (l ++ 13 :: 10 :: rest) = some (l, rest) := by
  induction l with
  | nil => simp [readLine]
  | cons b l ih =>
    have hb : b ≠ 13 := fun e => h (by simp [e])
    have hl : 13 ∉ l := fun e => h (List.mem_cons_of_mem _ e)
    simp [readLine, hb, ih hl]

theorem frameData_eq (jpegData rest : QByteArray) :
    frameData jpegData ++ rest
      = lit "--boundary" ++ 13 :: 10 :: (lit "Content-Type: image/jpeg" ++ 13 :: 10 ::
          ((lit "Content-Length: " ++ QByteArray.number jpegData.length) ++ 13 :: 10 ::
            13 :: 10 :: (jpegData ++ 13 :: 10 :: rest))) := by
  have h1 : BOUNDARY = lit "--boundary" := rfl
  have h2 : lit "\r\n" = [13, 10] := by decide
  have h3 : lit "Content-Type: image/jpeg\r\n" = lit "Content-Type: image/jpeg" ++ [13, 10] := by
    decide
  have h4 : lit "\r\n\r\n" = [13, 10, 13, 10] := by decide
  simp only [frameData, h1, h2, h3, h4, List.append_assoc, List.cons_append, List.nil_append]

theorem contentLength_header_no_cr (n : Nat) :
    13 ∉ lit "Content-Length: " ++ QByteArray.number n := by
  intro h
  rcases List.mem_append.mp h with h | h
  · revert h
    decide
  · have := numberAux_digits (n + 1) n 13 h
    omega

theorem readHeaders_frame (jpegData after : QByteArray) (fuel : Nat) (h : 3 ≤ fuel) :
    readHeaders fuel (lit "Content-Type: image/jpeg" ++ 13 :: 10 ::
        ((lit "Content-Length: " ++ QByteArray.number jpegData.length) ++ 13 :: 10 ::
          13 :: 10 :: after))
      = some ([lit "Content-Type: image/jpeg",
          lit "Content-Length: " ++ QByteArray.number jpegData.length], after) := by
  obtain ⟨k, rfl⟩ : ∃ k, fuel = k + 3 := ⟨fuel - 3, by omega⟩
  have hct : (13 : Nat) ∉ lit "Content-Type: image/jpeg" := by decide
  have hne1 : lit "Content-Type: image/jpeg" ≠ [] := by decide
  have hne2 : lit "Content-Length: " ++ QByteArray.number jpegData.length ≠ [] := by
    intro e
    have := congrArg List.length e
    simp [lit] at this
  have hblank : readLine (13 :: 10 :: after) = some ([], after) := by
    simp [readLine]
  simp only [readHeaders, readLine_append _ _ hct,
    readLine_append _ _ (contentLength_header_no_cr jpegData.length), hblank, if_neg hne1,
    if_neg hne2, if_true, Option.map_some']

theorem contentLength_frame (n : Nat) :
    contentLength [lit "Content-Type: image/jpeg", lit "Content-Length: " ++ QByteArray.number n]
      = some n := by
  have h1 : (lit "Content-Length: ").isPrefixOf (lit "Content-Type: image/jpeg") = false := by
    decide
  have h2 : (lit "Content-Length: ").isPrefixOf (lit "Content-Length: " ++ QByteArray.number n)
      = true := by
    rw [List.isPrefixOf_iff_prefix]
    exact List.prefix_append _ _
  simp [contentLength, List.findSome?, h1, h2, parseNat_number]

theorem readPart_frame (jpegData rest : QByteArray) :
    readPart BOUNDARY (frameData jpegData ++ rest)
      = some (⟨[lit "Content-Type: image/jpeg",
          lit "Content-Length: " ++ QByteArray.number jpegData.length],
          jpegData.length, jpegData⟩, rest) := by
  have hb : (13 : Nat) ∉ lit "--boundary" := by decide
  have hB : lit "--boundary" = BOUNDARY := rfl
  have hfuel : 3 ≤ (lit "Content-Type: image/jpeg" ++ 13 :: 10 ::
      ((lit "Content-Length: " ++ QByteArray.number jpegData.length) ++ 13 :: 10 ::
        13 :: 10 :: (jpegData ++ 13 :: 10 :: rest))).length := by
    simp [lit]
  have hlen : jpegData.length + 2 ≤ (jpegData ++ 13 :: 10 :: rest).length
      ∧ ((jpegData ++ 13 :: 10 :: rest).drop jpegData.length).take 2 = [13, 10] := by
    constructor
    · simp
    · simp
  have htake : (jpegData ++ 13 :: 10 :: rest).take jpegData.length = jpegData := by simp
  have hdrop : (jpegData ++ 13 :: 10 :: rest).drop (jpegData.length + 2) = rest := by
    rw [← List.drop_drop]
    simp
  rw [frameData_eq]
  unfold readPart
  rw [readLine_append _ _ hb]
  simp only [hB, ne_eq, not_true_eq_false, if_false,
    readHeaders_frame jpegData _ _ hfuel, contentLength_frame, if_pos hlen, htake, hdrop]

theorem frameData_length_pos (jpegData : QByteArray) : 0 < (frameData jpegData).length := by
  simp [frameData, lit]

theorem length_le_flatMap_frameData (frames : List QByteArray) :
    frames.length ≤ (frames.flatMap frameData).length := by
  induction frames with
  | nil => simp
  | cons j js ih =>
    have := frameData_length_pos j
    simp only [List.flatMap_cons, List.length_append, List.length_cons]
    omega

theorem readParts_frames (frames : List QByteArray) (fuel : Nat) (h : frames.length ≤ fuel) :
    readParts BOUNDARY fuel (frames.flatMap frameData) = some frames := by
  induction frames generalizing fuel with
  | nil => cases fuel <;> rfl
  | cons j js ih =>
    obtain ⟨k, rfl⟩ : ∃ k, fuel = k + 1 := ⟨fuel - 1, by simp at h; omega⟩
    have hk : js.length ≤ k := by simpa using h
    rw [List.flatMap_cons]
    have hpos := frameData_length_pos j
    cases hin : frameData j ++ js.flatMap frameData with
    | nil =>
      have := congrArg List.length hin
      simp only [List.length_append, List.length_nil] at this
      omega
    | cons b rest =>
      unfold readParts
      rw [← hin, readPart_frame]
      simp [ih k hk]

/-- C4: for every byte sequence `jpegData`, whatever bytes it contains, a reader given the
block built by `sendFrameToClients`, followed by any further bytes, reads the delimiter
line, the two header lines, a `Content-Length` whose decimal value is the length of
`jpegData`, and a body that is exactly `jpegData`, and stops exactly where the block ends;
for every list of byte sequences, reading the concatenation of their blocks gives back
exactly that list. -/
theorem C4_multipart_block_round_trip (jpegData rest : QByteArray)
    (frames : List QByteArray) :
    readPart BOUNDARY (frameData jpegData ++ rest)
        = some (⟨[lit "Content-Type: image/jpeg",
            lit "Content-Length: " ++ QByteArray.number jpegData.length],
            jpegData.length, jpegData⟩, rest)
      ∧ parseNat (QByteArray.number jpegData.length) = some jpegData.length
      ∧ contentLength [lit "Content-Type: image/jpeg",
            lit "Content-Length: " ++ QByteArray.number jpegData.length]
          = some jpegData.length
      ∧ readStream BOUNDARY (frames.flatMap frameData) = some frames :=
  ⟨readPart_frame jpegData rest, parseNat_number _, contentLength_frame _,
    readParts_frames frames _ (length_le_flatMap_frameData frames)⟩

/-- C10: the header of the stream response declares the boundary value `--boundary`, and
the first line of every block is `--boundary` as well: it is the declared value itself, not
two hyphens followed by the declared value. -/
theorem C10_block_opens_with_the_declared_value_itself (jpegData : QByteArray) :
    boundaryParam mjpegHeader = some (lit "--boundary")
      ∧ (readLine (frameData jpegData)).map Prod.fst = some (lit "--boundary")
      ∧ (readLine (frameData jpegData)).map Prod.fst
          ≠ (boundaryParam mjpegHeader).map delimiterLine := by
  have hb : (13 : Nat) ∉ lit "--boundary" := by decide
  have hline : (readLine (frameData jpegData)).map Prod.fst = some (lit "--boundary") := by
    have h := frameData_eq jpegData []
    rw [List.append_nil] at h
    rw [h, readLine_append _ _ hb]
    rfl
  have hparam : boundaryParam mjpegHeader = some (lit "--boundary") := by decide
  refine ⟨hparam, hline, ?_⟩
  rw [hline, hparam]
  decide

end Mjpeg
